import Mathlib

/-
Shallow embedding of `src/jaxlib/gpu/triton.cc` (the jax Triton custom-call
launcher) and proofs about it.

Machine integers are modelled as `Nat`/`Int`, device pointers as `Nat`,
measured times as `ℚ`.  GPU driver primitives (`cuMemsetD8Async`,
`cuLaunchKernel`, `cuMemcpyDtoHAsync`, ...) are external; calls to them are
recorded as explicit effect events, and driver calls whose success depends on
the device are modelled by oracle parameters.
-/

namespace JaxTriton

/-! ## KernelCall parameters (triton.cc, `KernelCall::ArrayParameter`,
`KernelCall::ScalarParameter`, `KernelCall::Parameter`) -/

/-- `KernelCall::ScalarParameter`: a tagged 64-bit-wide scalar value
(triton.cc lines 210-241). -/
inductive ScalarParameter where
  | bool_ (b : Bool)
  | i32 (v : Int)
  | u32 (v : Nat)
  | i64 (v : Int)
  | u64 (v : Nat)
deriving DecidableEq, Repr

/-- `KernelCall::ArrayParameter` (triton.cc lines 200-208). -/
structure ArrayParameter where
  bytes_to_zero : Nat
  ptr_must_be_divisible_by_16 : Bool
deriving DecidableEq, Repr

/-- `KernelCall::Parameter = std::variant<ArrayParameter, ScalarParameter>`
(triton.cc line 243). -/
inductive Parameter where
  | array (a : ArrayParameter)
  | scalar (s : ScalarParameter)
deriving DecidableEq, Repr

/-- The slot recorded in the driver parameter vector `params`:
for an array parameter, the slot holds the device pointer taken from
`buffers` (the driver dereferences one level, `params.push_back(&ptr)`);
for a scalar, the address of the inline scalar storage. -/
inductive ParamSlot where
  | arrayPtr (p : Nat)
  | scalarAddr (s : ScalarParameter)
deriving DecidableEq, Repr

/-- Driver side effects issued by `KernelCall::Launch` / `Kernel::Launch`. -/
inductive LaunchEffect where
  | memsetD8Async (ptr value bytes : Nat)
  | kernelLaunch (grid : Nat × Nat × Nat) (blockDimX sharedMemBytes : Nat)
      (slots : List ParamSlot)
deriving DecidableEq, Repr

/-- `class Kernel` attributes relevant to a launch (triton.cc lines 74-91):
`block_dim_x_ = num_warps * 32` and `shared_mem_bytes_`. -/
structure Kernel where
  block_dim_x : Nat
  shared_mem_bytes : Nat
deriving DecidableEq, Repr

/-- `class KernelCall` (triton.cc lines 198-303): a shared kernel, a 3-D grid
and the ordered parameter list. -/
structure KernelCall where
  kernel : Kernel
  grid : Nat × Nat × Nat
  parameters : List Parameter
deriving DecidableEq, Repr

/-- Outcome of `KernelCall::Launch`: either success (with the trace of driver
effects, the final one being the kernel launch), or
`InvalidArgumentError("Parameter %zu (%p) is not divisible by 16.", i, p)`
carrying the effects already issued, the parameter index and the pointer.
`undefinedBufferRead` marks the out-of-bounds read `*(buffers++)` performs in
the C++ when fewer buffers than array parameters are supplied (undefined
behaviour in the source). -/
inductive LaunchResult where
  | ok (effects : List LaunchEffect)
  | invalidArgument (effects : List LaunchEffect) (paramIndex ptr : Nat)
  | undefinedBufferRead
deriving DecidableEq, Repr

/-- The loop body of `KernelCall::Launch` (triton.cc lines 251-279):
walk the parameters in declaration order with index `i`; an array parameter
consumes the next buffer (`void*& ptr = *(buffers++)`), is checked for
16-byte alignment, and issues `cuMemsetD8Async` when `bytes_to_zero > 0`;
a scalar contributes the address of its inline storage and does not advance
the buffer cursor.  On success the accumulated vector is handed to
`kernel_->Launch(stream, grid_, params.data())`, recorded here as the final
`kernelLaunch` effect. -/
def launchLoop (kc : KernelCall) :
    Nat → List Parameter → List Nat → List LaunchEffect → List ParamSlot →
    LaunchResult
  | _, [], _, effects, slots =>
      .ok (effects ++
        [.kernelLaunch kc.grid kc.kernel.block_dim_x kc.kernel.shared_mem_bytes
          slots])
  | _, .array _ :: _, [], _, _ => .undefinedBufferRead
  | i, .array a :: rest, p :: buffers, effects, slots =>
      if a.ptr_must_be_divisible_by_16 && p % 16 != 0 then
        .invalidArgument effects i p
      else
        launchLoop kc (i + 1) rest buffers
          (effects ++
            (if a.bytes_to_zero > 0 then [.memsetD8Async p 0 a.bytes_to_zero]
             else []))
          (slots ++ [.arrayPtr p])
  | i, .scalar s :: rest, buffers, effects, slots =>
      launchLoop kc (i + 1) rest buffers effects (slots ++ [.scalarAddr s])

/-- `KernelCall::Launch(stream, buffers)` (triton.cc lines 251-279). -/
def KernelCall.launch (kc : KernelCall) (buffers : List Nat) : LaunchResult :=
  launchLoop kc 0 kc.parameters buffers [] []

/-- The parameter vector that positional binding should produce: the i-th
array parameter takes the i-th buffer, scalars are inline and do not consume
a buffer. -/
def expectedSlots : List Parameter → List Nat → List ParamSlot
  | [], _ => []
  | .array _ :: _, [] => []
  | .array _ :: rest, p :: buffers => .arrayPtr p :: expectedSlots rest buffers
  | .scalar s :: rest, buffers => .scalarAddr s :: expectedSlots rest buffers

/-- The zero-fill (`cuMemsetD8Async`) effects that the launch loop issues for
a parameter prefix: one memset per array parameter with `bytes_to_zero > 0`,
at the corresponding positional buffer. -/
def zeroFills : List Parameter → List Nat → List LaunchEffect
  | [], _ => []
  | .array _ :: _, [] => []
  | .array a :: rest, p :: buffers =>
      (if a.bytes_to_zero > 0 then [.memsetD8Async p 0 a.bytes_to_zero]
       else []) ++ zeroFills rest buffers
  | .scalar _ :: rest, buffers => zeroFills rest buffers

/-- Number of array parameters in a parameter list (the number of device
buffers the launch consumes). -/
def arrayCount (params : List Parameter) : Nat :=
  (params.filter fun p => match p with
    | .array _ => true
    | .scalar _ => false).length

/-- Whether a launch effect is a driver kernel launch. -/
def LaunchEffect.isKernelLaunch : LaunchEffect → Bool
  | .kernelLaunch _ _ _ _ => true
  | _ => false

theorem launchLoop_ok_slots (kc : KernelCall) :
    ∀ (rest : List Parameter) (buffers : List Nat) (i : Nat)
      (effects : List LaunchEffect) (slots : List ParamSlot)
      (out : List LaunchEffect),
      launchLoop kc i rest buffers effects slots = .ok out →
      out.getLast? = some (.kernelLaunch kc.grid kc.kernel.block_dim_x
        kc.kernel.shared_mem_bytes (slots ++ expectedSlots rest buffers))
  | [], buffers, i, effects, slots, out => by
      intro h
      simp only [launchLoop] at h
      cases h
      simp [expectedSlots]
  | .array a :: rest, [], i, effects, slots, out => by
      intro h
      simp only [launchLoop] at h
      exact LaunchResult.noConfusion h
  | .array a :: rest, p :: buffers, i, effects, slots, out => by
      intro h
      simp only [launchLoop] at h
      by_cases hal : (a.ptr_must_be_divisible_by_16 && p % 16 != 0) = true
      · rw [if_pos hal] at h; cases h
      · rw [if_neg hal] at h
        have := launchLoop_ok_slots kc rest buffers (i + 1)
          (effects ++
            (if a.bytes_to_zero > 0 then [.memsetD8Async p 0 a.bytes_to_zero]
             else []))
          (slots ++ [.arrayPtr p]) out h
        simpa [expectedSlots] using this
  | .scalar s :: rest, buffers, i, effects, slots, out => by
      intro h
      simp only [launchLoop] at h
      have := launchLoop_ok_slots kc rest buffers (i + 1) effects
        (slots ++ [.scalarAddr s]) out h
      simpa [expectedSlots] using this

/-- C6: Positional binding: when `KernelCall.launch` succeeds, the driver
receives exactly the parameter vector in which the i-th array parameter's
slot holds the i-th device buffer (in declaration order) and scalar
parameters sit inline without advancing the buffer cursor. -/
theorem kernelCall_launch_positional_binding (kc : KernelCall)
    (buffers : List Nat) (out : List LaunchEffect)
    (h : kc.launch buffers = .ok out) :
    out.getLast? = some (.kernelLaunch kc.grid kc.kernel.block_dim_x
      kc.kernel.shared_mem_bytes (expectedSlots kc.parameters buffers)) := by
  have := launchLoop_ok_slots kc kc.parameters buffers 0 [] [] out h
  simpa using this

/-- The spec's positional-binding example call: parameter types
`[Array, Scalar, Array, Scalar, Array]`. -/
def exampleCallC6 : KernelCall where
  kernel := { block_dim_x := 128, shared_mem_bytes := 0 }
  grid := (4, 1, 1)
  parameters :=
    [.array ⟨0, false⟩, .scalar (.i32 7), .array ⟨0, false⟩,
     .scalar (.u64 9), .array ⟨0, false⟩]

/-- The effect trace the example call produces on buffers `[16, 32, 48]`. -/
def exampleEffectsC6 : List LaunchEffect :=
  [.kernelLaunch (4, 1, 1) 128 0
    [.arrayPtr 16, .scalarAddr (.i32 7), .arrayPtr 32,
     .scalarAddr (.u64 9), .arrayPtr 48]]

/-- Witness for C6, the spec's own example: with parameter types
`[Array, Scalar, Array, Scalar, Array]` and buffers `[16, 32, 48]`, the three
buffers land in the three array slots in order, scalars interleaved inline. -/
theorem kernelCall_launch_positional_binding_witness :
    KernelCall.launch exampleCallC6 [16, 32, 48] = .ok exampleEffectsC6 ∧
      exampleEffectsC6.getLast? = some (.kernelLaunch exampleCallC6.grid
        exampleCallC6.kernel.block_dim_x exampleCallC6.kernel.shared_mem_bytes
        (expectedSlots exampleCallC6.parameters [16, 32, 48])) :=
  ⟨by decide,
   kernelCall_launch_positional_binding exampleCallC6 [16, 32, 48]
     exampleEffectsC6 (by decide)⟩

theorem arrayCount_array_cons (a : ArrayParameter) (l : List Parameter) :
    arrayCount (.array a :: l) = arrayCount l + 1 := by
  simp [arrayCount, List.filter_cons]

theorem arrayCount_scalar_cons (s : ScalarParameter) (l : List Parameter) :
    arrayCount (.scalar s :: l) = arrayCount l := by
  simp [arrayCount, List.filter_cons]

theorem zeroFills_no_kernelLaunch :
    ∀ (params : List Parameter) (buffers : List Nat),
      ((zeroFills params buffers).all fun e => !e.isKernelLaunch) = true
  | [], _ => by simp [zeroFills]
  | .array _ :: _, [] => by simp [zeroFills]
  | .array a :: rest, p :: buffers => by
      have ih := zeroFills_no_kernelLaunch rest buffers
      by_cases hz : a.bytes_to_zero > 0 <;>
        simp [zeroFills, hz, LaunchEffect.isKernelLaunch, List.all_eq_true] <;>
        simpa [List.all_eq_true] using ih
  | .scalar _ :: rest, buffers => by
      simpa [zeroFills] using zeroFills_no_kernelLaunch rest buffers

theorem launchLoop_invalidArgument_spec (kc : KernelCall) :
    ∀ (rest : List Parameter) (buffers : List Nat) (i : Nat)
      (effects : List LaunchEffect) (slots : List ParamSlot)
      (effs : List LaunchEffect) (j q : Nat),
      launchLoop kc i rest buffers effects slots = .invalidArgument effs j q →
      ∃ k, j = i + k ∧
        effs = effects ++ zeroFills (rest.take k) buffers ∧
        (∃ a, rest[k]? = some (.array a) ∧
          a.ptr_must_be_divisible_by_16 = true) ∧
        buffers[arrayCount (rest.take k)]? = some q ∧ q % 16 ≠ 0
  | [], buffers, i, effects, slots, effs, j, q => by
      intro h
      simp only [launchLoop] at h
      exact LaunchResult.noConfusion h
  | .array a :: rest, [], i, effects, slots, effs, j, q => by
      intro h
      simp only [launchLoop] at h
      exact LaunchResult.noConfusion h
  | .array a :: rest, p :: buffers, i, effects, slots, effs, j, q => by
      intro h
      simp only [launchLoop] at h
      by_cases hal : (a.ptr_must_be_divisible_by_16 && p % 16 != 0) = true
      · rw [if_pos hal] at h
        cases h
        refine ⟨0, by omega, by simp [zeroFills], ⟨a, by simp, ?_⟩, ?_, ?_⟩
        · exact (Bool.and_eq_true _ _ ▸ hal).1
        · simp [arrayCount]
        · have := (Bool.and_eq_true _ _ ▸ hal).2
          simpa using this
      · rw [if_neg hal] at h
        obtain ⟨k, hk, heff, ⟨b, hb, hbreq⟩, hbuf, hq⟩ :=
          launchLoop_invalidArgument_spec kc rest buffers (i + 1)
            (effects ++
              (if a.bytes_to_zero > 0 then [.memsetD8Async p 0 a.bytes_to_zero]
               else []))
            (slots ++ [.arrayPtr p]) effs j q h
        refine ⟨k + 1, by omega, ?_, ⟨b, by simpa using hb, hbreq⟩, ?_, hq⟩
        · simp only [List.take_succ_cons, zeroFills, heff, List.append_assoc]
        · simpa [List.take_succ_cons, arrayCount_array_cons, Nat.add_comm]
            using hbuf
  | .scalar s :: rest, buffers, i, effects, slots, effs, j, q => by
      intro h
      simp only [launchLoop] at h
      obtain ⟨k, hk, heff, ⟨b, hb, hbreq⟩, hbuf, hq⟩ :=
        launchLoop_invalidArgument_spec kc rest buffers (i + 1) effects
          (slots ++ [.scalarAddr s]) effs j q h
      refine ⟨k + 1, by omega, ?_, ⟨b, by simpa using hb, hbreq⟩, ?_, hq⟩
      · simp only [List.take_succ_cons, zeroFills, heff]
      · simpa [List.take_succ_cons, arrayCount_scalar_cons] using hbuf

theorem launchLoop_alignment_failure (kc : KernelCall) :
    ∀ (rest : List Parameter) (buffers : List Nat) (i : Nat)
      (effects : List LaunchEffect) (slots : List ParamSlot),
      (∃ k a q, rest[k]? = some (.array a) ∧
        a.ptr_must_be_divisible_by_16 = true ∧
        buffers[arrayCount (rest.take k)]? = some q ∧ q % 16 ≠ 0) →
      ∃ effs j q, launchLoop kc i rest buffers effects slots =
        .invalidArgument effs j q
  | [], buffers, i, effects, slots => by
      rintro ⟨k, a, q, hk, -, -, -⟩
      simp at hk
  | .array a :: rest, [], i, effects, slots => by
      rintro ⟨k, b, q, hk, hreq, hbuf, hq⟩
      simp at hbuf
  | .array a :: rest, p :: buffers, i, effects, slots => by
      rintro ⟨k, b, q, hk, hreq, hbuf, hq⟩
      by_cases hal : (a.ptr_must_be_divisible_by_16 && p % 16 != 0) = true
      · exact ⟨effects, i, p, by simp [launchLoop, hal]⟩
      · cases k with
        | zero =>
            simp only [List.getElem?_cons_zero, Option.some_inj] at hk
            cases hk
            simp only [List.take_zero, arrayCount, List.filter_nil,
              List.length_nil, List.getElem?_cons_zero, Option.some_inj] at hbuf
            cases hbuf
            rw [hreq, Bool.true_and] at hal
            simp only [bne_iff_ne, ne_eq, Decidable.not_not] at hal
            exact absurd hal hq
        | succ k =>
            have hrec := launchLoop_alignment_failure kc rest buffers (i + 1)
              (effects ++
                (if a.bytes_to_zero > 0 then
                  [.memsetD8Async p 0 a.bytes_to_zero] else []))
              (slots ++ [.arrayPtr p])
              ⟨k, b, q, by simpa using hk, hreq, by
                simpa [List.take_succ_cons, arrayCount_array_cons,
                  Nat.add_comm] using hbuf, hq⟩
            obtain ⟨effs, j, q', hrun⟩ := hrec
            exact ⟨effs, j, q', by simp [launchLoop, hal, hrun]⟩
  | .scalar s :: rest, buffers, i, effects, slots => by
      rintro ⟨k, b, q, hk, hreq, hbuf, hq⟩
      cases k with
      | zero => simp at hk
      | succ k =>
          have hrec := launchLoop_alignment_failure kc rest buffers (i + 1)
            effects (slots ++ [.scalarAddr s])
            ⟨k, b, q, by simpa using hk, hreq, by
              simpa [List.take_succ_cons, arrayCount_scalar_cons] using hbuf,
              hq⟩
          obtain ⟨effs, j, q', hrun⟩ := hrec
          exact ⟨effs, j, q', by simp [launchLoop, hrun]⟩

/-- C7: Alignment enforcement: if some `ArrayParameter` with
`require_16byte_alignment = true` is handed a positional buffer pointer that
is not a multiple of 16, `KernelCall.launch` returns `InvalidArgument`
identifying a (required-alignment, misaligned) parameter index and its
pointer, and the effect trace contains no driver kernel launch. -/
theorem kernelCall_launch_alignment_enforcement (kc : KernelCall)
    (buffers : List Nat) (i : Nat) (a : ArrayParameter) (p : Nat)
    (hp : kc.parameters[i]? = some (.array a))
    (hreq : a.ptr_must_be_divisible_by_16 = true)
    (hb : buffers[arrayCount (kc.parameters.take i)]? = some p)
    (hmis : p % 16 ≠ 0) :
    ∃ effs j q, kc.launch buffers = .invalidArgument effs j q ∧
      (∃ b, kc.parameters[j]? = some (.array b) ∧
        b.ptr_must_be_divisible_by_16 = true) ∧
      buffers[arrayCount (kc.parameters.take j)]? = some q ∧
      q % 16 ≠ 0 ∧
      (effs.all fun e => !e.isKernelLaunch) = true := by
  obtain ⟨effs, j, q, hrun⟩ :=
    launchLoop_alignment_failure kc kc.parameters buffers 0 [] []
      ⟨i, a, p, hp, hreq, hb, hmis⟩
  obtain ⟨k, hk, heff, hb', hbuf, hq⟩ :=
    launchLoop_invalidArgument_spec kc kc.parameters buffers 0 [] [] effs j q
      hrun
  have hjk : j = k := by omega
  subst hjk
  refine ⟨effs, j, q, hrun, hb', hbuf, hq, ?_⟩
  rw [heff]
  simpa using zeroFills_no_kernelLaunch (kc.parameters.take j) buffers

/-- The spec's S2 scenario: one array parameter requiring 16-byte alignment,
supplied with the misaligned pointer `0x1008 = 4104`. -/
def exampleCallC7 : KernelCall where
  kernel := { block_dim_x := 128, shared_mem_bytes := 0 }
  grid := (1, 1, 1)
  parameters := [.array ⟨0, true⟩]

/-- Witness for C7 at the spec's S2 scenario: buffer `0x1008` fails the
alignment check and no kernel launch is issued. -/
theorem kernelCall_launch_alignment_enforcement_witness :
    exampleCallC7.parameters[0]? = some (.array ⟨0, true⟩) ∧
      (4104 : Nat) % 16 ≠ 0 ∧
      (∃ effs j q,
        exampleCallC7.launch [4104] = .invalidArgument effs j q ∧
          (∃ b, exampleCallC7.parameters[j]? = some (.array b) ∧
            b.ptr_must_be_divisible_by_16 = true) ∧
          [4104][arrayCount (exampleCallC7.parameters.take j)]? = some q ∧
          q % 16 ≠ 0 ∧
          (effs.all fun e => !e.isKernelLaunch) = true) :=
  ⟨by decide, by decide,
   kernelCall_launch_alignment_enforcement exampleCallC7 [4104] 0 ⟨0, true⟩
     4104 (by decide) (by decide) (by decide) (by decide)⟩

/-- C10: the launch is not atomic with respect to zero-fill side effects:
when `KernelCall.launch` fails with `InvalidArgument` at parameter index `i`,
the effect trace it has already issued is exactly the asynchronous device
memsets of every preceding `ArrayParameter` with `bytes_to_zero > 0` (and
nothing compensates for them), while the failing index is a
required-alignment array parameter whose pointer has a non-zero low nibble. -/
theorem kernelCall_launch_zero_fills_survive_failure (kc : KernelCall)
    (buffers : List Nat) (effs : List LaunchEffect) (i p : Nat)
    (h : kc.launch buffers = .invalidArgument effs i p) :
    effs = zeroFills (kc.parameters.take i) buffers ∧
      (∃ a, kc.parameters[i]? = some (.array a) ∧
        a.ptr_must_be_divisible_by_16 = true) ∧
      p % 16 ≠ 0 := by
  obtain ⟨k, hk, heff, hb, hbuf, hq⟩ :=
    launchLoop_invalidArgument_spec kc kc.parameters buffers 0 [] [] effs i p h
  have hik : i = k := by omega
  subst hik
  exact ⟨by simpa using heff, hb, hq⟩

/-- A call whose first array parameter zero-fills 8 bytes and whose second
array parameter requires 16-byte alignment. -/
def exampleCallC10 : KernelCall where
  kernel := { block_dim_x := 64, shared_mem_bytes := 0 }
  grid := (1, 1, 1)
  parameters := [.array ⟨8, false⟩, .array ⟨0, true⟩]

/-- Witness for C10: with buffers `[0, 8]` the second parameter is misaligned,
the launch fails, and the 8-byte memset enqueued for the first buffer is the
entire effect trace. -/
theorem kernelCall_launch_zero_fills_survive_failure_witness :
    exampleCallC10.launch [0, 8] =
        .invalidArgument [.memsetD8Async 0 0 8] 1 8 ∧
      ([.memsetD8Async 0 0 8] =
          zeroFills (exampleCallC10.parameters.take 1) [0, 8] ∧
        (∃ a, exampleCallC10.parameters[1]? = some (.array a) ∧
          a.ptr_must_be_divisible_by_16 = true) ∧
        (8 : Nat) % 16 ≠ 0) :=
  ⟨by decide,
   kernelCall_launch_zero_fills_survive_failure exampleCallC10 [0, 8]
     [.memsetD8Async 0 0 8] 1 8 (by decide)⟩

/-! ## Autotune iteration calibration (triton.cc lines 377-394) -/

/-- `AutotunedKernelCall::kBenchmarkTimeMillis = 10.` (triton.cc line 350). -/
def kBenchmarkTimeMillis : ℚ := 10

/-- `static_cast<int>` of a C `float`: truncation toward zero (defined only
when the value fits in `int`; the theorem about it carries that bound as a
hypothesis). -/
def castToInt (q : ℚ) : Int :=
  if 0 ≤ q then ⌊q⌋ else -⌊-q⌋

/-- The iteration-count calibration of `AutotunedKernelCall::Autotune`
(triton.cc lines 385-394): `timed_iters =
max(static_cast<int>(kBenchmarkTimeMillis / best), 1)`, then the cap at 100
taken through the two source paths (the `> 100` branch and the `std::min`). -/
def timedIters (best : ℚ) : Int :=
  let t := max (castToInt (kBenchmarkTimeMillis / best)) 1
  if t > 100 then 100 else min t 100

/-- C9: Iteration calibration: with `best` the (positive) minimum
single-iteration time, and assuming `10 / best` fits in a 32-bit `int`
(otherwise the C++ cast is undefined), the number of timed iterations is
`max(1, floor(10 / best))` clamped to at most 100, hence always in
`[1, 100]`. -/
theorem autotune_timedIters_calibration (best : ℚ) (h0 : 0 < best)
    (hfit : ⌊kBenchmarkTimeMillis / best⌋ < 2 ^ 31) :
    timedIters best = min 100 (max 1 ⌊(10 : ℚ) / best⌋) ∧
      1 ≤ timedIters best ∧ timedIters best ≤ 100 := by
  have hqpos : 0 ≤ kBenchmarkTimeMillis / best :=
    le_of_lt (div_pos (by norm_num [kBenchmarkTimeMillis]) h0)
  have hcast : castToInt (kBenchmarkTimeMillis / best) =
      ⌊(10 : ℚ) / best⌋ := by
    rw [castToInt, if_pos hqpos, kBenchmarkTimeMillis]
  constructor
  · simp only [timedIters, hcast]
    rcases le_or_lt (⌊(10 : ℚ) / best⌋) 100 with hle | hgt
    · have hmax : max ⌊(10 : ℚ) / best⌋ 1 ≤ 100 := by
        rw [max_le_iff]; exact ⟨hle, by norm_num⟩
      rw [if_neg (by omega)]
      omega
    · have hmax : (100 : Int) < max ⌊(10 : ℚ) / best⌋ 1 := by
        calc (100 : Int) < ⌊(10 : ℚ) / best⌋ := hgt
        _ ≤ max ⌊(10 : ℚ) / best⌋ 1 := le_max_left _ _
      rw [if_pos hmax]
      omega
  · simp only [timedIters, hcast]
    rcases le_or_lt (max ⌊(10 : ℚ) / best⌋ 1) 100 with hle | hgt
    · rw [if_neg (by omega)]
      constructor <;> omega
    · rw [if_pos hgt]
      constructor <;> omega

/-- Witness for C9 at `best = 1/2` ms: `floor(10 / (1/2)) = 20` iterations,
within `[1, 100]`. -/
theorem autotune_timedIters_calibration_witness :
    (0 : ℚ) < 1 / 2 ∧ ⌊kBenchmarkTimeMillis / (1 / 2 : ℚ)⌋ < 2 ^ 31 ∧
      (timedIters (1 / 2) = min 100 (max 1 ⌊(10 : ℚ) / (1 / 2)⌋) ∧
        1 ≤ timedIters (1 / 2) ∧ timedIters (1 / 2) ≤ 100) :=
  ⟨by norm_num,
   by norm_num [kBenchmarkTimeMillis],
   autotune_timedIters_calibration (1 / 2) (by norm_num)
     (by norm_num [kBenchmarkTimeMillis])⟩

/-! ## Call cache: `GetKernelCall` (triton.cc lines 455-505)

Byte strings are `List Nat`.  zlib `uncompress` (together with the
grow-and-retry loop around it, whose net effect is the uncompressed bytes or
an unrecoverable failure) and `proto.ParseFromString` plus the subsequent
`FromProto` construction are external collaborators, passed in as oracle
parameters `uncomp` and `parses`.  Constructed call objects are identified by
a fresh id drawn from `nextId` (the `unique_ptr` identity that
`it2->second.get()` returns). -/

/-- The process-wide `kernel_calls` map state: entries keyed by byte strings
plus the supply of fresh call-object ids. -/
structure CallCacheState where
  entries : List (List Nat × Nat)
  nextId : Nat
deriving DecidableEq, Repr

/-- Outcome of `GetKernelCall`: a call-object id, an `InvalidArgument`
(decompression or parse failure), or `checkFailed`, the abort of the
`CHECK(success)` after `kernel_calls.insert` (triton.cc line 503). -/
inductive GetCallResult where
  | ok (callId : Nat)
  | invalidArgument (msg : String)
  | checkFailed
deriving DecidableEq, Repr

/-- `GetKernelCall(opaque)` (triton.cc lines 455-505): under the cache lock,
probe the map with the compressed opaque bytes (`kernel_calls.find(opaque)`);
on miss decompress and parse, construct the call object, then insert keyed by
the DECOMPRESSED bytes (`kernel_calls.insert({std::string(serialized), ...})`)
and `CHECK` that the insert succeeded. -/
def getKernelCall (uncomp : List Nat → Option (List Nat))
    (parses : List Nat → Bool) (blob : List Nat) (st : CallCacheState) :
    GetCallResult × CallCacheState :=
  match st.entries.find? fun e => e.1 == blob with
  | some e => (.ok e.2, st)
  | none =>
    match uncomp blob with
    | none => (.invalidArgument "Failed to uncompress opaque data.", st)
    | some serialized =>
      if parses serialized then
        if (st.entries.find? fun e => e.1 == serialized).isSome then
          (.checkFailed, st)
        else
          (.ok st.nextId, ⟨(serialized, st.nextId) :: st.entries, st.nextId + 1⟩)
      else (.invalidArgument "Failed to parse serialized data.", st)

/-- A decompressor under which the opaque `[0]` decompresses to the
descriptor bytes `[2, 3]` (as with any real zlib stream, the compressed and
decompressed bytes differ). -/
def uncompC1 : List Nat → Option (List Nat) :=
  fun b => if b == [0] then some [2, 3] else none

/-- C1 (code bug): two calls to `GetKernelCall` with the same opaque bytes
`[0]` (which trivially decompress to byte-equal descriptors) do not return
the same cached call object: the first call constructs object `0` and inserts
it keyed by the decompressed bytes `[2, 3]`; the second call probes with the
compressed key `[0]`, misses, reconstructs, and its insert collides with the
existing key, so `CHECK(success)` fails (process abort) instead of returning
the cached object. -/
theorem getKernelCall_cache_key_mismatch :
    (getKernelCall uncompC1 (fun _ => true) [0] ⟨[], 0⟩).1 = .ok 0 ∧
      (getKernelCall uncompC1 (fun _ => true) [0]
        (getKernelCall uncompC1 (fun _ => true) [0] ⟨[], 0⟩).2).1 =
        .checkFailed := by
  constructor <;> rfl

/-! ## Autotune aliased-input save/restore (triton.cc lines 363-372 and
417-421)

`buffers` is the runtime's device-pointer array, modelled as `Nat → Nat`
(index to pointer).  Saved host-side copies (`input_copies`, an
`unordered_map<size_t, vector<uint8_t>>`) are modelled as association pairs
`(input_idx, host vector length)`.  Asynchronous copies are recorded as
effects; an `memcpyHtoDAsync` effect carries the length of the host vector it
reads from, so a read past the end of the host vector is visible as
`hostLen < size`. -/

/-- Asynchronous copy effects issued by `AutotunedKernelCall::Autotune`. -/
inductive CopyEffect where
  | memcpyDtoHAsync (src size : Nat)
  | memcpyHtoDAsync (dst size hostLen : Nat)
deriving DecidableEq, Repr

/-- The save step (triton.cc lines 363-372): for each alias triple
`(input_idx, output_idx, size)` with `buffers[input_idx] ==
buffers[output_idx]`, enqueue a device-to-host copy and store the host copy
under `input_idx`. -/
def saveAliasedInputs (buffers : Nat → Nat)
    (input_output_aliases : List (Nat × Nat × Nat)) :
    List CopyEffect × List (Nat × Nat) :=
  input_output_aliases.foldl
    (fun acc t =>
      if buffers t.1 == buffers t.2.1 then
        (acc.1 ++ [.memcpyDtoHAsync (buffers t.1) t.2.2],
         acc.2 ++ [(t.1, t.2.2)])
      else acc)
    ([], [])

/-- `input_copies[input_idx]`: `std::unordered_map::operator[]`
default-constructs an empty vector (length 0) when the key is absent. -/
def copiesLookup (copies : List (Nat × Nat)) (idx : Nat) : Nat :=
  match copies.find? fun e => e.1 == idx with
  | some e => e.2
  | none => 0

/-- The restore step (triton.cc lines 417-421): for EVERY alias triple —
saved or not — enqueue a host-to-device copy of `size` bytes from
`input_copies[input_idx]` back to `buffers[input_idx]`. -/
def restoreAliasedInputs (buffers : Nat → Nat)
    (input_output_aliases : List (Nat × Nat × Nat))
    (copies : List (Nat × Nat)) : List CopyEffect :=
  input_output_aliases.map fun t =>
    .memcpyHtoDAsync (buffers t.1) t.2.2 (copiesLookup copies t.1)

/-- The buffer array of the C3 failing input: `buffers[0] = 10`,
`buffers[1] = 20` (the alias triple's two pointers differ). -/
def buffersC3 : Nat → Nat := fun i => if i == 0 then 10 else 20

/-- C3 (code bug): with the single alias triple `(0, 1, 4)` and differing
pointers `buffers[0] = 10 ≠ 20 = buffers[1]`, the save step saves nothing,
yet the restore step still enqueues a 4-byte host-to-device write into
`buffers[0]` — sourced from a default-constructed empty host vector
(`hostLen = 0 < 4`, an out-of-bounds read).  The claim that a
differing-pointer alias buffer is never written by the restore step is false. -/
theorem autotune_restore_writes_unsaved_alias :
    saveAliasedInputs buffersC3 [(0, 1, 4)] = ([], []) ∧
      restoreAliasedInputs buffersC3 [(0, 1, 4)]
          (saveAliasedInputs buffersC3 [(0, 1, 4)]).2 =
        [.memcpyHtoDAsync 10 4 0] := by
  constructor <;> rfl

/-! ## `Kernel::GetFunctionForContext` (triton.cc lines 94-150)

Contexts, modules, functions and devices are handles (`Nat`).  The driver
calls the body makes are supplied as an oracle record; a call either succeeds
with its result or reports a driver error.  The kernel's per-context state is
the module collection `modules_` and the context-to-function map
`functions_`. -/

/-- The `Kernel` state protected by its mutex: `modules_` and `functions_`. -/
structure KernelState where
  modules : List Nat
  functions : List (Nat × Nat)
deriving DecidableEq, Repr

/-- Outcomes of the driver calls `GetFunctionForContext` makes, as an oracle:
`none` / `false` means the driver call fails (surfaced as a non-ok status via
`CUDA_RETURN_IF_ERROR`). -/
structure FnDriver where
  ctxPush : Bool
  moduleLoad : Option Nat
  moduleGetFunction : Option Nat
  ctxGetDevice : Option Nat
  sharedOptin : Option Nat
  setCacheConfig : Bool
  sharedTotal : Option Nat
  sharedStatic : Option Nat
  setAttribute : Bool
deriving DecidableEq, Repr

/-- Result of `GetFunctionForContext`: the resolved function handle, a
driver error, or `InvalidArgument` (shared memory request exceeds the
device's opt-in limit). -/
inductive FnResult where
  | ok (function : Nat)
  | driverError
  | invalidArgument (msg : String)
deriving DecidableEq, Repr

/-- `constexpr int kMaxStaticSharedMemBytes = 49152` (triton.cc line 116). -/
def kMaxStaticSharedMemBytes : Nat := 49152

/-- `Kernel::GetFunctionForContext(context)` (triton.cc lines 94-150),
with the kernel's `shared_mem_bytes_` passed explicitly.  Under the kernel
lock: probe `functions_`; on miss push the context, load the module
(retaining it in `modules_`), resolve the function, INSERT `(context,
function)` into `functions_` — and only then run the dynamic-shared-memory
opt-in sequence, whose failures leave the already-inserted entry in place.
The `cuCtxPopCurrent` cleanup has no effect on the kernel state and is not
recorded. -/
def getFunctionForContext (shared_mem_bytes : Nat) (d : FnDriver)
    (context : Nat) (st : KernelState) : FnResult × KernelState :=
  match st.functions.find? fun e => e.1 == context with
  | some e => (.ok e.2, st)
  | none =>
    if !d.ctxPush then (.driverError, st) else
    match d.moduleLoad with
    | none => (.driverError, st)
    | some module =>
      let st1 : KernelState := ⟨st.modules ++ [module], st.functions⟩
      match d.moduleGetFunction with
      | none => (.driverError, st1)
      | some function =>
        let st2 : KernelState :=
          ⟨st1.modules, st1.functions ++ [(context, function)]⟩
        if shared_mem_bytes ≤ kMaxStaticSharedMemBytes then (.ok function, st2)
        else
          match d.ctxGetDevice with
          | none => (.driverError, st2)
          | some _device =>
            match d.sharedOptin with
            | none => (.driverError, st2)
            | some shared_optin =>
              if shared_mem_bytes > shared_optin then
                (.invalidArgument
                  "Shared memory requested exceeds device resources.", st2)
              else if shared_optin > kMaxStaticSharedMemBytes then
                if !d.setCacheConfig then (.driverError, st2) else
                match d.sharedTotal with
                | none => (.driverError, st2)
                | some _shared_total =>
                  match d.sharedStatic with
                  | none => (.driverError, st2)
                  | some _shared_static =>
                    if !d.setAttribute then (.driverError, st2)
                    else (.ok function, st2)
              else (.ok function, st2)

/-- A driver on which context push, module load and function resolution
succeed, and the device reports an opt-in limit of 49152 bytes. -/
def fnDriverC2 : FnDriver where
  ctxPush := true
  moduleLoad := some 1
  moduleGetFunction := some 7
  ctxGetDevice := some 0
  sharedOptin := some 49152
  setCacheConfig := true
  sharedTotal := some 102400
  sharedStatic := some 0
  setAttribute := true

/-- C2 counterexample: with `shared_mem_bytes = 50000` exceeding the opt-in
limit 49152, `GetFunctionForContext` fails with `InvalidArgument` — yet the
`(context, function)` entry HAS been inserted into the kernel's map (and the
loaded module retained), contradicting the claim that on any failure no
entry is inserted and no partial state is retained. -/
theorem getFunctionForContext_inserts_despite_failure :
    (getFunctionForContext 50000 fnDriverC2 3 ⟨[], []⟩).1 =
        .invalidArgument "Shared memory requested exceeds device resources." ∧
      (getFunctionForContext 50000 fnDriverC2 3 ⟨[], []⟩).2 =
        ⟨[1], [(3, 7)]⟩ := by
  constructor <;> rfl

/-- C2 amended: if the dynamic-shared-memory opt-in sequence fails because
`shared_mem_bytes` exceeds the device's opt-in limit, the call returns
`InvalidArgument`, but the `(context, function)` entry has already been
inserted into the kernel's context-to-function map (and the loaded module
retained in the module collection); only failures before the function handle
is resolved insert nothing. -/
theorem getFunctionForContext_optin_failure_keeps_entry
    (shared_mem_bytes : Nat) (d : FnDriver) (context : Nat) (st : KernelState)
    (hmiss : (st.functions.find? fun e => e.1 == context) = none)
    (hpush : d.ctxPush = true) (m : Nat) (hload : d.moduleLoad = some m)
    (f : Nat) (hfn : d.moduleGetFunction = some f)
    (hbig : shared_mem_bytes > kMaxStaticSharedMemBytes)
    (dev : Nat) (hdev : d.ctxGetDevice = some dev)
    (so : Nat) (hso : d.sharedOptin = some so)
    (hexceed : shared_mem_bytes > so) :
    getFunctionForContext shared_mem_bytes d context st =
      (.invalidArgument "Shared memory requested exceeds device resources.",
        ⟨st.modules ++ [m], st.functions ++ [(context, f)]⟩) := by
  rw [getFunctionForContext, hmiss, hpush, hload, hfn, hdev, hso]
  simp only [Bool.not_true, Bool.false_eq_true, if_false]
  rw [if_neg (by omega), if_pos hexceed]

/-- Witness for C2's amended claim at the counterexample's concrete input. -/
theorem getFunctionForContext_optin_failure_keeps_entry_witness :
    getFunctionForContext 50000 fnDriverC2 3 ⟨[], []⟩ =
      (.invalidArgument "Shared memory requested exceeds device resources.",
        ⟨[] ++ [1], [] ++ [(3, 7)]⟩) :=
  getFunctionForContext_optin_failure_keeps_entry 50000 fnDriverC2 3 ⟨[], []⟩
    rfl rfl 1 rfl 7 rfl (by norm_num [kMaxStaticSharedMemBytes]) 0 rfl
    49152 rfl (by norm_num)

/-! ## `AutotunedKernelCall::Benchmark` (triton.cc lines 427-444)

The two events are handles `0` (`start`) and `1` (`stop`).  Driver calls and
the inner `kernel_call.Launch` are an oracle; the trace records event
creation, launches, records, synchronisation, the elapsed-time read and event
destruction, in program order.  Every failing call returns immediately via
`CUDA_RETURN_IF_ERROR` / `JAX_RETURN_IF_ERROR`; the source has no scoped
cleanup for the events. -/

/-- Trace events of `Benchmark`. -/
inductive BenchEvent where
  | eventCreate (e : Nat)
  | launch
  | eventRecord (e : Nat)
  | eventSynchronize (e : Nat)
  | eventElapsedTime
  | eventDestroy (e : Nat)
deriving DecidableEq, Repr

/-- Success/failure of each driver call `Benchmark` makes, plus the elapsed
milliseconds the event pair reports. -/
structure BenchDriver where
  createStartOk : Bool
  createStopOk : Bool
  warmupOk : Bool
  launchOk : Nat → Bool
  recordStartOk : Bool
  recordStopOk : Bool
  syncOk : Bool
  elapsedOk : Bool
  elapsedMs : ℚ
  destroyStartOk : Bool
  destroyStopOk : Bool

/-- The timed launch loop (`for (int i = 0; i < num_iterations; ++i)`):
returns the launch events, or `none` as soon as one launch fails. -/
def timedLaunches (launchOk : Nat → Bool) : Nat → Nat → Option (List BenchEvent)
  | _, 0 => some []
  | i, n + 1 =>
    if launchOk i then
      (timedLaunches launchOk (i + 1) n).map fun l => .launch :: l
    else none

/-- `AutotunedKernelCall::Benchmark(stream, kernel_call, buffers,
num_iterations)` (triton.cc lines 427-444): create `start` and `stop`,
warm-up launch, record `start`, launch `num_iterations` times, record `stop`,
synchronize on `stop`, read the elapsed time, destroy both events, return the
elapsed milliseconds.  The result is `none` exactly when some step failed;
the trace holds whatever had been issued before the early return. -/
def benchmark (d : BenchDriver) (num_iterations : Nat) :
    Option ℚ × List BenchEvent :=
  if !d.createStartOk then (none, []) else
  let tr0 := [BenchEvent.eventCreate 0]
  if !d.createStopOk then (none, tr0) else
  let tr1 := tr0 ++ [BenchEvent.eventCreate 1]
  if !d.warmupOk then (none, tr1) else
  let tr2 := tr1 ++ [BenchEvent.launch]
  if !d.recordStartOk then (none, tr2) else
  let tr3 := tr2 ++ [BenchEvent.eventRecord 0]
  match timedLaunches d.launchOk 0 num_iterations with
  | none => (none, tr3)
  | some launches =>
    let tr4 := tr3 ++ launches
    if !d.recordStopOk then (none, tr4) else
    let tr5 := tr4 ++ [BenchEvent.eventRecord 1]
    if !d.syncOk then (none, tr5) else
    let tr6 := tr5 ++ [BenchEvent.eventSynchronize 1]
    if !d.elapsedOk then (none, tr6) else
    let tr7 := tr6 ++ [BenchEvent.eventElapsedTime]
    if !d.destroyStartOk then (none, tr7) else
    let tr8 := tr7 ++ [BenchEvent.eventDestroy 0]
    if !d.destroyStopOk then (none, tr8) else
    (some d.elapsedMs, tr8 ++ [BenchEvent.eventDestroy 1])

/-- A driver on which both event creations succeed and the warm-up launch
fails. -/
def benchDriverC4 : BenchDriver where
  createStartOk := true
  createStopOk := true
  warmupOk := false
  launchOk := fun _ => true
  recordStartOk := true
  recordStopOk := true
  syncOk := true
  elapsedOk := true
  elapsedMs := 1
  destroyStartOk := true
  destroyStopOk := true

/-- C4 counterexample: when the warm-up launch fails, `Benchmark` returns an
error with both events created and NEITHER destroyed — the claim that both
events are destroyed on every exit path is false. -/
theorem benchmark_leaks_events_on_error :
    benchmark benchDriverC4 1 =
        (none, [.eventCreate 0, .eventCreate 1]) ∧
      BenchEvent.eventDestroy 0 ∉ (benchmark benchDriverC4 1).2 ∧
      BenchEvent.eventDestroy 1 ∉ (benchmark benchDriverC4 1).2 := by
  refine ⟨rfl, ?_, ?_⟩ <;> decide

/-- All driver operations a `benchmark` run needs succeed. -/
def BenchDriver.allOk (d : BenchDriver) : Prop :=
  d.createStartOk = true ∧ d.createStopOk = true ∧ d.warmupOk = true ∧
    (∀ i, d.launchOk i = true) ∧ d.recordStartOk = true ∧
    d.recordStopOk = true ∧ d.syncOk = true ∧ d.elapsedOk = true ∧
    d.destroyStartOk = true ∧ d.destroyStopOk = true

theorem timedLaunches_allOk (launchOk : Nat → Bool)
    (h : ∀ i, launchOk i = true) :
    ∀ (n i : Nat), timedLaunches launchOk i n =
      some (List.replicate n .launch)
  | 0, i => by simp [timedLaunches]
  | n + 1, i => by
      rw [timedLaunches, if_pos (h i), timedLaunches_allOk launchOk h n]
      simp [List.replicate]

/-- C4 amended: both events are destroyed before `Benchmark` returns on the
path where every launch and driver event operation succeeds (and the elapsed
time is returned); on error paths the source returns early without
destroying them (see the counterexample), as there is no scoped release. -/
theorem benchmark_destroys_events_on_success (d : BenchDriver) (n : Nat)
    (h : d.allOk) :
    (benchmark d n).1 = some d.elapsedMs ∧
      BenchEvent.eventDestroy 0 ∈ (benchmark d n).2 ∧
      BenchEvent.eventDestroy 1 ∈ (benchmark d n).2 := by
  obtain ⟨h1, h2, h3, h4, h5, h6, h7, h8, h9, h10⟩ := h
  rw [benchmark, h1, h2, h3, h5, timedLaunches_allOk d.launchOk h4 n 0, h6,
    h7, h8, h9, h10]
  simp

/-- Witness for C4's amended claim: an all-success driver with two timed
iterations destroys both events and reports the elapsed time. -/
theorem benchmark_destroys_events_on_success_witness :
    ({ benchDriverC4 with warmupOk := true } : BenchDriver).allOk ∧
      ((benchmark { benchDriverC4 with warmupOk := true } 2).1 = some 1 ∧
        BenchEvent.eventDestroy 0 ∈
          (benchmark { benchDriverC4 with warmupOk := true } 2).2 ∧
        BenchEvent.eventDestroy 1 ∈
          (benchmark { benchDriverC4 with warmupOk := true } 2).2) :=
  ⟨⟨rfl, rfl, rfl, fun _ => rfl, rfl, rfl, rfl, rfl, rfl, rfl⟩,
   benchmark_destroys_events_on_success _ 2
     ⟨rfl, rfl, rfl, fun _ => rfl, rfl, rfl, rfl, rfl, rfl, rfl⟩⟩

/-! ## Kernel cache: `GetKernel` (triton.cc lines 162-191)

The trace records the mutex acquisition (`absl::MutexLock lock(&mutex)` at
function scope, released only when the function returns), the cache probe,
the external `stream_executor::CompileGpuAsm` call and the insert.
`CompileGpuAsm` is an oracle.  `Kernel` instances (`shared_ptr` identities)
are fresh ids. -/

/-- `TritonKernel` proto fields consumed by `GetKernel`. -/
structure TritonKernel where
  ptx : String
  kernel_name : String
  num_warps : Nat
  shared_mem_bytes : Nat
  compute_capability : Nat
deriving DecidableEq, Repr

/-- The kernel compilation key
`(ptx, kernel_name, num_warps, shared_mem_bytes, compute_capability)`. -/
abbrev KernelKey := String × String × Nat × Nat × Nat

/-- The process-wide `kernels` map plus the supply of fresh kernel ids. -/
structure KernelCacheState where
  kernels : List (KernelKey × Nat)
  nextId : Nat
deriving DecidableEq, Repr

/-- Events of one `GetKernel` call, in program order. -/
inductive CacheEvent where
  | lockAcquire
  | cacheProbe (hit : Bool)
  | compileGpuAsm
  | cacheInsert
  | lockRelease
deriving DecidableEq, Repr

/-- Result of `GetKernel`: the canonical kernel id or the surfaced
`CompileGpuAsm` failure. -/
inductive GetKernelResult where
  | ok (kernelId : Nat)
  | compileError
deriving DecidableEq, Repr

/-- `GetKernel(proto)` (triton.cc lines 162-191): compute the key; take the
cache mutex (held until return); probe; on miss call
`CompileGpuAsm(cc/10, cc%10, ptx)` — still inside the critical section —
construct the `Kernel`, insert it (the `CHECK(success)` cannot fire, since
the probe missed under the same uninterrupted lock) and return it. -/
def getKernel (compile : Nat → Nat → String → Option (List Nat))
    (proto : TritonKernel) (st : KernelCacheState) :
    (GetKernelResult × KernelCacheState) × List CacheEvent :=
  let key : KernelKey := (proto.ptx, proto.kernel_name, proto.num_warps,
    proto.shared_mem_bytes, proto.compute_capability)
  match st.kernels.find? fun e => e.1 == key with
  | some e =>
      ((.ok e.2, st), [.lockAcquire, .cacheProbe true, .lockRelease])
  | none =>
    match compile (proto.compute_capability / 10)
        (proto.compute_capability % 10) proto.ptx with
    | none =>
        ((.compileError, st),
          [.lockAcquire, .cacheProbe false, .compileGpuAsm, .lockRelease])
    | some _module_image =>
        ((.ok st.nextId, ⟨(key, st.nextId) :: st.kernels, st.nextId + 1⟩),
          [.lockAcquire, .cacheProbe false, .compileGpuAsm, .cacheInsert,
           .lockRelease])

/-- Whether every `compileGpuAsm` event in a trace happens while no lock is
held (`d` is the number of currently held acquisitions). -/
def compileOutsideLock : List CacheEvent → Nat → Bool
  | [], _ => true
  | .lockAcquire :: rest, d => compileOutsideLock rest (d + 1)
  | .lockRelease :: rest, d => compileOutsideLock rest (d - 1)
  | .compileGpuAsm :: rest, d => d == 0 && compileOutsideLock rest d
  | _ :: rest, d => compileOutsideLock rest d

/-- A compiler oracle that succeeds with a one-byte module image. -/
def compileC5 : Nat → Nat → String → Option (List Nat) := fun _ _ _ => some [0]

/-- The C5 probe-miss input. -/
def protoC5 : TritonKernel where
  ptx := "ptx"
  kernel_name := "k"
  num_warps := 4
  shared_mem_bytes := 0
  compute_capability := 80

/-- C5 counterexample: on a cache miss the `CompileGpuAsm` call happens while
the cache mutex is held — the claim that compilation is performed outside the
critical section is false (and, the lock never being released mid-call, no
insert race to tolerate can arise). -/
theorem getKernel_compiles_inside_lock :
    compileOutsideLock (getKernel compileC5 protoC5 ⟨[], 0⟩).2 0 = false := by
  rfl

/-- C5 amended: `GetKernel` holds the cache lock for its whole body: on a
miss the probe, the `CompileGpuAsm` call and the insert all happen inside one
uninterrupted critical section (so the insert cannot lose a race and its
`CHECK(success)` always passes), and the canonical instance is returned. -/
theorem getKernel_single_critical_section
    (compile : Nat → Nat → String → Option (List Nat)) (proto : TritonKernel)
    (st : KernelCacheState) (image : List Nat)
    (hmiss : (st.kernels.find? fun e =>
      e.1 == (proto.ptx, proto.kernel_name, proto.num_warps,
        proto.shared_mem_bytes, proto.compute_capability)) = none)
    (hcomp : compile (proto.compute_capability / 10)
      (proto.compute_capability % 10) proto.ptx = some image) :
    getKernel compile proto st =
      ((.ok st.nextId,
          ⟨((proto.ptx, proto.kernel_name, proto.num_warps,
              proto.shared_mem_bytes, proto.compute_capability),
            st.nextId) :: st.kernels, st.nextId + 1⟩),
        [.lockAcquire, .cacheProbe false, .compileGpuAsm, .cacheInsert,
         .lockRelease]) ∧
      compileOutsideLock (getKernel compile proto st).2 0 = false := by
  have h : getKernel compile proto st =
      ((.ok st.nextId,
          ⟨((proto.ptx, proto.kernel_name, proto.num_warps,
              proto.shared_mem_bytes, proto.compute_capability),
            st.nextId) :: st.kernels, st.nextId + 1⟩),
        [.lockAcquire, .cacheProbe false, .compileGpuAsm, .cacheInsert,
         .lockRelease]) := by
    rw [getKernel]
    simp only [hmiss, hcomp]
  exact ⟨h, by rw [h]; rfl⟩

/-- Witness for C5's amended claim at the concrete miss input. -/
theorem getKernel_single_critical_section_witness :
    getKernel compileC5 protoC5 ⟨[], 0⟩ =
      ((.ok 0,
          ⟨[(("ptx", "k", 4, 0, 80), 0)], 1⟩),
        [.lockAcquire, .cacheProbe false, .compileGpuAsm, .cacheInsert,
         .lockRelease]) ∧
      compileOutsideLock (getKernel compileC5 protoC5 ⟨[], 0⟩).2 0 = false :=
  getKernel_single_critical_section compileC5 protoC5 ⟨[], 0⟩ [0] rfl rfl

/-! ## Autotune selection (triton.cc lines 396-411)

The selection loop `for (Config& config : configs_)` visits positions
`0 .. n-1`; at position `i` it benchmarks the config CURRENTLY in that slot
and, on strict improvement over `best` (initially `+∞`, modelled as
`(⊤ : WithTop ℚ)`), swaps it into position 0 (`std::swap(config,
configs_[0])`).  Afterwards `configs_.erase(configs_.begin() + 1,
configs_.end())` keeps only position 0.  Configs are an arbitrary type `α`;
`bench` gives the measured time of a config over the timed iterations
(`Benchmark` succeeding, as the claim's success path assumes). -/

/-- `std::swap(configs_[i], configs_[0])`: exchange positions `0` and `i`
(identity when `i = 0` or `i` is out of range). -/
def swap0 {α : Type} : List α → Nat → List α
  | l, 0 => l
  | [], _ + 1 => []
  | a :: as, i + 1 =>
    match as[i]? with
    | none => a :: as
    | some b => b :: as.set i a

/-- The selection loop of `AutotunedKernelCall::Autotune` (triton.cc lines
396-408), iterating positions `i, i+1, ...` for `fuel` more iterations:
benchmark the config at the current position; if strictly better than
`best`, update `best` and swap it into position 0. -/
def selectGo {α : Type} (bench : α → ℚ) :
    Nat → List α → WithTop ℚ → Nat → List α × WithTop ℚ
  | _, l, best, 0 => (l, best)
  | i, l, best, fuel + 1 =>
    match l[i]? with
    | none => (l, best)
    | some c =>
      if (bench c : WithTop ℚ) < best then
        selectGo bench (i + 1) (swap0 l i) (bench c) fuel
      else selectGo bench (i + 1) l best fuel

/-- The whole selection step: reset `best = +∞`, run the loop over all
positions, then `erase(begin() + 1, end())` — keep only position 0. -/
def autotuneSelect {α : Type} (bench : α → ℚ) (configs : List α) : List α :=
  (selectGo bench 0 configs ⊤ configs.length).1.take 1

/-- The config the selection should pick: scan left to right keeping the
incumbent unless a config is STRICTLY faster (so ties keep the earlier
config). -/
def firstBest {α : Type} (bench : α → ℚ) : α → List α → α
  | b, [] => b
  | b, c :: cs => firstBest bench (if bench c < bench b then c else b) cs

theorem swap0_length {α : Type} :
    ∀ (l : List α) (i : Nat), (swap0 l i).length = l.length
  | l, 0 => by cases l <;> rfl
  | [], _ + 1 => rfl
  | a :: as, i + 1 => by
      rw [swap0]
      match h : as[i]? with
      | none => rfl
      | some b => simp

theorem swap0_head {α : Type} :
    ∀ (l : List α) (i : Nat) (c : α), 1 ≤ i → l[i]? = some c →
      (swap0 l i)[0]? = some c
  | [], i, c, _, h => by simp at h
  | a :: as, i + 1, c, _, h => by
      rw [swap0]
      simp only [List.getElem?_cons_succ] at h
      rw [h]
      simp

theorem set_drop_of_lt {α : Type} :
    ∀ (as : List α) (i j : Nat) (a : α), i < j →
      (as.set i a).drop j = as.drop j
  | [], _, _, _, _ => by simp
  | x :: as, 0, j + 1, a, _ => by simp
  | x :: as, i + 1, j + 1, a, h => by
      simp only [List.set_cons_succ, List.drop_succ_cons]
      exact set_drop_of_lt as i j a (by omega)

theorem swap0_drop {α : Type} :
    ∀ (l : List α) (i : Nat), (swap0 l i).drop (i + 1) = l.drop (i + 1)
  | l, 0 => by cases l <;> rfl
  | [], _ + 1 => rfl
  | a :: as, i + 1 => by
      rw [swap0]
      match h : as[i]? with
      | none => rfl
      | some b =>
          simp only [List.drop_succ_cons]
          exact set_drop_of_lt as i (i + 1) a (by omega)

theorem selectGo_head {α : Type} (bench : α → ℚ) :
    ∀ (fuel i : Nat) (l : List α) (b0 : α),
      1 ≤ i → l[0]? = some b0 → l.length = i + fuel →
      ((selectGo bench i l (bench b0) fuel).1)[0]? =
        some (firstBest bench b0 (l.drop i))
  | 0, i, l, b0, hi, h0, hlen => by
      rw [selectGo, List.drop_eq_nil_of_le (by omega), firstBest]
      exact h0
  | fuel + 1, i, l, b0, hi, h0, hlen => by
      have hilt : i < l.length := by omega
      have hc : l[i]? = some l[i] := List.getElem?_eq_getElem hilt
      have hdrop : l.drop i = l[i] :: l.drop (i + 1) :=
        List.drop_eq_getElem_cons hilt
      rw [selectGo]
      simp only [hc]
      by_cases hlt : (bench l[i] : WithTop ℚ) < (bench b0 : WithTop ℚ)
      · rw [if_pos hlt]
        have hlt' : bench l[i] < bench b0 := by
          exact_mod_cast hlt
        have ih := selectGo_head bench fuel (i + 1) (swap0 l i) l[i]
          (by omega) (swap0_head l i l[i] hi hc)
          (by rw [swap0_length]; omega)
        rw [swap0_drop] at ih
        rw [ih, hdrop, firstBest, if_pos hlt']
      · rw [if_neg hlt]
        have hlt' : ¬ bench l[i] < bench b0 := by
          intro hcon
          exact hlt (by exact_mod_cast hcon)
        have ih := selectGo_head bench fuel (i + 1) l b0 (by omega) h0
          (by omega)
        rw [ih, hdrop, firstBest, if_neg hlt']

theorem firstBest_le {α : Type} (bench : α → ℚ) :
    ∀ (cs : List α) (b : α), ∀ x ∈ b :: cs,
      bench (firstBest bench b cs) ≤ bench x
  | [], b, x, hx => by
      simp only [List.mem_singleton] at hx
      rw [hx, firstBest]
  | c :: cs, b, x, hx => by
      rw [firstBest]
      have hble : bench (if bench c < bench b then c else b) ≤ bench b := by
        by_cases h : bench c < bench b
        · rw [if_pos h]; exact le_of_lt h
        · rw [if_neg h]
      have hcle : bench (if bench c < bench b then c else b) ≤ bench c := by
        by_cases h : bench c < bench b
        · rw [if_pos h]
        · rw [if_neg h]; exact le_of_not_lt h
      simp only [List.mem_cons] at hx
      rcases hx with hx | hx | hx
      · rw [hx]
        exact le_trans (firstBest_le bench cs _ _ (List.mem_cons_self _ _))
          hble
      · rw [hx]
        exact le_trans (firstBest_le bench cs _ _ (List.mem_cons_self _ _))
          hcle
      · exact firstBest_le bench cs _ x
          (List.mem_cons_of_mem _ (by exact hx))

theorem firstBest_first {α : Type} (bench : α → ℚ) :
    ∀ (cs : List α) (b : α), ∃ pre post,
      b :: cs = pre ++ firstBest bench b cs :: post ∧
        ∀ x ∈ pre, bench (firstBest bench b cs) < bench x
  | [], b => ⟨[], [], rfl, by simp⟩
  | c :: cs, b => by
      rw [firstBest]
      by_cases h : bench c < bench b
      · rw [if_pos h]
        obtain ⟨pre, post, hsplit, hpre⟩ := firstBest_first bench cs c
        refine ⟨b :: pre, post, by rw [List.cons_append, ← hsplit], ?_⟩
        intro x hx
        simp only [List.mem_cons] at hx
        rcases hx with hx | hx
        · rw [hx]
          calc bench (firstBest bench c cs) ≤ bench c :=
                firstBest_le bench cs c c (List.mem_cons_self _ _)
          _ < bench b := h
        · exact hpre x hx
      · rw [if_neg h]
        obtain ⟨pre, post, hsplit, hpre⟩ := firstBest_first bench cs b
        cases pre with
        | nil =>
            simp only [List.nil_append] at hsplit
            refine ⟨[], c :: cs, ?_, by simp⟩
            rw [List.nil_append]
            rw [List.cons_eq_cons] at hsplit
            rw [← hsplit.1]
        | cons p pre =>
            rw [List.cons_append, List.cons_eq_cons] at hsplit
            obtain ⟨hp, hcs⟩ := hsplit
            refine ⟨b :: c :: pre, post,
              by rw [List.cons_append, List.cons_append, ← hcs], ?_⟩
            intro x hx
            simp only [List.mem_cons] at hx
            rcases hx with hx | hx | hx
            · rw [hx]
              exact hp ▸ hpre p (List.mem_cons_self _ _)
            · rw [hx]
              calc bench (firstBest bench b cs) < bench b :=
                    hp ▸ hpre p (List.mem_cons_self _ _)
              _ ≤ bench c := le_of_not_lt h
            · exact hpre x (List.mem_cons_of_mem _ hx)

theorem take_one_of_head {α : Type} (l : List α) (d : α)
    (h : l[0]? = some d) : l.take 1 = [d] := by
  cases l with
  | nil => simp at h
  | cons a t =>
      simp only [List.getElem?_cons_zero, Option.some_inj] at h
      rw [h]
      rfl

/-- C8: Autotune selection: for an `AutotunedKernelCall` with at least two
configs (and all benchmarks succeeding, `bench` giving each config's measured
time over the timed iterations), after the strict-improvement swap loop and
the discard, exactly one config survives in position 0: one attaining the
minimum measured time, and every config listed before it is strictly slower
(so ties go to the earlier config in original order). -/
theorem autotuneSelect_picks_first_best {α : Type} (bench : α → ℚ)
    (c1 c2 : α) (cs : List α) :
    ∃ d, autotuneSelect bench (c1 :: c2 :: cs) = [d] ∧
      (∀ x ∈ c1 :: c2 :: cs, bench d ≤ bench x) ∧
      ∃ pre post, c1 :: c2 :: cs = pre ++ d :: post ∧
        ∀ x ∈ pre, bench d < bench x := by
  refine ⟨firstBest bench c1 (c2 :: cs), ?_, ?_, ?_⟩
  · rw [autotuneSelect]
    apply take_one_of_head
    have hstep : selectGo bench 0 (c1 :: c2 :: cs) ⊤
        (c1 :: c2 :: cs).length =
        selectGo bench 1 (c1 :: c2 :: cs) (bench c1) (c2 :: cs).length := by
      rw [List.length_cons, selectGo]
      simp only [List.getElem?_cons_zero]
      rw [if_pos (WithTop.coe_lt_top (bench c1))]
      rfl
    rw [hstep]
    have := selectGo_head bench (c2 :: cs).length 1 (c1 :: c2 :: cs) c1
      (by omega) (by simp) (by simp only [List.length_cons]; omega)
    simpa using this
  · exact firstBest_le bench (c2 :: cs) c1
  · exact firstBest_first bench (c2 :: cs) c1

end JaxTriton
